import Mathlib

/-!
Verification of the steam_community_info_analysis repository's
session-inference core and its storage/export/collection collaborators.

Modelling conventions, shared by all definitions below:

* Timestamps (`datetime` values in the source) are modelled as `Nat`.
  Every timestamp the program handles is an aware UTC instant, and the
  ISO-8601 strings the program produces for them are in one fixed format,
  so both the chronological order and the lexicographic order of their
  textual forms coincide with the order on the modelled `Nat`.
* Python `int` fields (`appid`, `playtime_forever`) are modelled as `Int`
  (Python integers are unbounded).
* Optional / nullable fields are modelled with `Option`.
* The scraped collector's fractional playtime hours (Python floats
  compared against a `0.01` tolerance) are modelled as `ℚ`.
* SQL result sets are modelled as lists of rows; an `ORDER BY` clause is
  modelled by a stable insertion sort on the corresponding key, and
  Python's stable `list.sort` is modelled the same way.
* Exceptions are modelled with `Except`; a Python `try/except` block is a
  `match` on the `Except` value of the code it wraps.
-/

/-- Model of `storage.PlaytimeSnapshot` (and of the field-identical
`pg_storage.PgPlaytimeSnapshot`): one observation of one game's cumulative
playtime counter for one player. -/
structure PlaytimeSnapshot where
  captured_at_utc : Nat
  steamid : String
  appid : Int
  game_name : Option String
  playtime_forever : Int
deriving DecidableEq, Repr

/-- Model of `analyzer.PlaySession`: one inferred play interval. -/
structure PlaySession where
  steamid : String
  appid : Int
  game_name : String
  window_start_utc : Nat
  window_end_utc : Nat
  minutes_delta : Int
deriving DecidableEq, Repr

/-- Python string truthiness fallback `o or dflt` for an optional string
`o`: `None` and the empty string are falsy. -/
def pyStrOr (o : Option String) (dflt : String) : String :=
  match o with
  | none => dflt
  | some s => if s = "" then dflt else s

/-- Name fallback of `analyzer.infer_sessions_for_steamid`:
`current.game_name or prev.game_name or ""`, then the synthetic
`f"appid {appid}"` placeholder if the result is still empty. -/
def analyzerGameName (appid : Int) (cur prev : Option String) : String :=
  let n := pyStrOr cur (pyStrOr prev "")
  if n = "" then "appid " ++ toString appid else n

/-- The inner pair walk of `analyzer.infer_sessions_for_steamid`
(src/analyzer.py lines 33-50): `prev` starts at the partition's head and
is advanced to `current` after every step, emitting a session exactly when
the counter strictly increased. -/
def walkPairs (steamid : String) (appid : Int) :
    PlaytimeSnapshot → List PlaytimeSnapshot → List PlaySession
  | _, [] => []
  | prev, current :: rest =>
    (if prev.playtime_forever < current.playtime_forever then
      [{ steamid := steamid
         appid := appid
         game_name := analyzerGameName appid current.game_name prev.game_name
         window_start_utc := prev.captured_at_utc
         window_end_utc := current.captured_at_utc
         minutes_delta := current.playtime_forever - prev.playtime_forever }]
     else []) ++ walkPairs steamid appid current rest

/-- Per-item body of the loop in `analyzer.infer_sessions_for_steamid`:
partitions with fewer than two snapshots are skipped (`continue`),
otherwise the pair walk runs from the first snapshot. -/
def sessionsForApp (steamid : String) (appid : Int)
    (app_snaps : List PlaytimeSnapshot) : List PlaySession :=
  if app_snaps.length < 2 then []
  else
    match app_snaps with
    | [] => []
    | prev :: rest => walkPairs steamid appid prev rest

/-- First-appearance order of the keys of the `by_app` dict built with
`by_app.setdefault(snap.appid, []).append(snap)` (Python dicts preserve
insertion order). -/
def dictKeys (snaps : List PlaytimeSnapshot) : List Int :=
  snaps.foldl (fun ks s => if s.appid ∈ ks then ks else ks ++ [s.appid]) []

/-- Model of `analyzer.infer_sessions_for_steamid`, taking the already
fetched snapshot list as input: group by appid (a dict group's value list
is the appid-filtered subsequence in input order), run the pair walk per
item, concatenate in dict-key order. -/
def infer_sessions_for_steamid (steamid : String)
    (snapshots : List PlaytimeSnapshot) : List PlaySession :=
  ((dictKeys snapshots).map
    (fun a => sessionsForApp steamid a
      (snapshots.filter (fun s => s.appid == a)))).flatten

/-- Model of `analyzer.infer_sessions_for_all`: the per-subject
fetch+inference is the function argument `f`; an exception raised for one
subject propagates out of the loop (there is no `try/except` in this
function), aborting the remaining subjects. -/
def infer_sessions_for_all (f : String → Except String (List PlaySession)) :
    List String → Except String (List PlaySession)
  | [] => .ok []
  | steamid :: rest =>
    match f steamid with
    | .error e => .error e
    | .ok sessions =>
      match infer_sessions_for_all f rest with
      | .error e => .error e
      | .ok more => .ok (sessions ++ more)

/-- Adjacent-pair formulation of the claimed per-item inference contract,
written from the spec's words: one session per adjacent pair with a strict
counter increase, carrying the delta and the pair's capture times, and
nothing for any other pair. -/
def adjacentPairSessions (steamid : String) (appid : Int)
    (snaps : List PlaytimeSnapshot) : List PlaySession :=
  (snaps.zip snaps.tail).filterMap
    (fun pc =>
      if pc.1.playtime_forever < pc.2.playtime_forever then
        some
          { steamid := steamid
            appid := appid
            game_name := analyzerGameName appid pc.2.game_name pc.1.game_name
            window_start_utc := pc.1.captured_at_utc
            window_end_utc := pc.2.captured_at_utc
            minutes_delta := pc.2.playtime_forever - pc.1.playtime_forever }
      else none)

theorem walkPairs_eq (steamid : String) (appid : Int)
    (prev : PlaytimeSnapshot) (rest : List PlaytimeSnapshot) :
    walkPairs steamid appid prev rest =
      adjacentPairSessions steamid appid (prev :: rest) := by
  induction rest generalizing prev with
  | nil => simp [walkPairs, adjacentPairSessions]
  | cons c rest ih =>
    simp only [walkPairs, adjacentPairSessions, List.zip_cons_cons,
      List.tail_cons, List.filterMap_cons] at *
    by_cases h : prev.playtime_forever < c.playtime_forever
    · simp [h, ih c]
    · simp [h, ih c]

theorem sessionsForApp_eq_adjacentPairSessions (steamid : String)
    (appid : Int) (snaps : List PlaytimeSnapshot) :
    sessionsForApp steamid appid snaps =
      adjacentPairSessions steamid appid snaps := by
  match snaps with
  | [] => simp [sessionsForApp, adjacentPairSessions]
  | [x] => simp [sessionsForApp, adjacentPairSessions]
  | x :: y :: rest =>
    rw [sessionsForApp]
    simp only [List.length_cons]
    rw [if_neg (by omega)]
    exact walkPairs_eq steamid appid x (y :: rest)

/-- Model of the dict a session becomes in
`frontend_api._infer_sessions_from_snapshots`: same payload as
`PlaySession`, with the steamid taken from the `current` snapshot and the
window timestamps destined for ISO-8601 rendering. -/
structure SessionDict where
  steamid : String
  appid : Int
  game_name : String
  window_start_utc : Nat
  window_end_utc : Nat
  minutes_delta : Int
deriving DecidableEq, Repr

/-- Name fallback of `frontend_api`:
`current.game_name or prev.game_name or f"appid {appid}"`. -/
def frontendGameName (appid : Int) (cur prev : Option String) : String :=
  pyStrOr cur (pyStrOr prev ("appid " ++ toString appid))

/-- The inner pair walk of `frontend_api._infer_sessions_from_snapshots`
(src/frontend_api.py lines 35-48). -/
def walkPairsF (appid : Int) :
    PlaytimeSnapshot → List PlaytimeSnapshot → List SessionDict
  | _, [] => []
  | prev, current :: rest =>
    (if prev.playtime_forever < current.playtime_forever then
      [{ steamid := current.steamid
         appid := appid
         game_name := frontendGameName appid current.game_name prev.game_name
         window_start_utc := prev.captured_at_utc
         window_end_utc := current.captured_at_utc
         minutes_delta := current.playtime_forever - prev.playtime_forever }]
     else []) ++ walkPairsF appid current rest

/-- Per-item loop body of `_infer_sessions_from_snapshots`. -/
def sessionsForAppF (appid : Int)
    (app_snaps : List PlaytimeSnapshot) : List SessionDict :=
  if app_snaps.length < 2 then []
  else
    match app_snaps with
    | [] => []
    | prev :: rest => walkPairsF appid prev rest

/-- The session list of `_infer_sessions_from_snapshots` before its final
`sessions.sort(...)` call: groups in dict-key order, walk output within
each group.  (The function's early `return` for an empty snapshot list
yields `[]`, which this general form also produces.) -/
def rawSessionsFromSnapshots (snapshots : List PlaytimeSnapshot) :
    List SessionDict :=
  ((dictKeys snapshots).map
    (fun a => sessionsForAppF a
      (snapshots.filter (fun s => s.appid == a)))).flatten

/-- The sort key of `sessions.sort(key=lambda s: (s["steamid"], s["appid"],
s["window_start_utc"]))` as a total preorder.  The stored
`window_start_utc` ISO strings all share one fixed format, so their
lexicographic comparison agrees with the `Nat` order of the modelled
timestamps. -/
def sessLe (a b : SessionDict) : Prop :=
  a.steamid < b.steamid ∨
    (a.steamid = b.steamid ∧
      (a.appid < b.appid ∨
        (a.appid = b.appid ∧ a.window_start_utc ≤ b.window_start_utc)))

instance : DecidableRel sessLe := fun a b => by
  unfold sessLe; infer_instance

instance : IsTotal SessionDict sessLe := by
  constructor
  intro a b
  rcases lt_trichotomy a.steamid b.steamid with h | h | h
  · exact Or.inl (Or.inl h)
  · rcases lt_trichotomy a.appid b.appid with h2 | h2 | h2
    · exact Or.inl (Or.inr ⟨h, Or.inl h2⟩)
    · rcases Nat.le_total a.window_start_utc b.window_start_utc with h3 | h3
      · exact Or.inl (Or.inr ⟨h, Or.inr ⟨h2, h3⟩⟩)
      · exact Or.inr (Or.inr ⟨h.symm, Or.inr ⟨h2.symm, h3⟩⟩)
    · exact Or.inr (Or.inr ⟨h.symm, Or.inl h2⟩)
  · exact Or.inr (Or.inl h)

instance : IsTrans SessionDict sessLe := by
  constructor
  intro a b c hab hbc
  rcases hab with h1 | ⟨e1, h1⟩
  · rcases hbc with h2 | ⟨e2, _⟩
    · exact Or.inl (h1.trans h2)
    · exact Or.inl (e2 ▸ h1)
  · rcases hbc with h2 | ⟨e2, h2⟩
    · exact Or.inl (e1 ▸ h2)
    · refine Or.inr ⟨e1.trans e2, ?_⟩
      rcases h1 with h1 | ⟨f1, h1⟩
      · rcases h2 with h2 | ⟨f2, _⟩
        · exact Or.inl (h1.trans h2)
        · exact Or.inl (f2 ▸ h1)
      · rcases h2 with h2 | ⟨f2, h2⟩
        · exact Or.inl (f1 ▸ h2)
        · exact Or.inr ⟨f1.trans f2, h1.trans h2⟩

/-- Model of `frontend_api._infer_sessions_from_snapshots`: the raw walk
output followed by Python's stable `list.sort` on the
(steamid, appid, window_start) key, modelled by the stable
`List.insertionSort`. -/
def inferSessionsFromSnapshots (snapshots : List PlaytimeSnapshot) :
    List SessionDict :=
  List.insertionSort sessLe (rawSessionsFromSnapshots snapshots)

/-- Model of the `GET /api/sessions` handler `frontend_api.get_sessions`,
taking the subject's fetched snapshot list as input: infer, then apply
`if limit is not None and limit > 0 and len(sessions) > limit:
sessions = sessions[-limit:]`. -/
def get_sessions (snapshots : List PlaytimeSnapshot) :
    Option Int → List SessionDict
  | none => inferSessionsFromSnapshots snapshots
  | some l =>
    if 0 < l ∧ l < ((inferSessionsFromSnapshots snapshots).length : Int) then
      (inferSessionsFromSnapshots snapshots).drop
        ((inferSessionsFromSnapshots snapshots).length - l.toNat)
    else inferSessionsFromSnapshots snapshots

/-- Model of one parsed object of the exported JSON array
(`web_export.export_sessions_to_json` writes string and integer JSON
fields, which `json` round-trips exactly, so parsing is the identity on
this record). The ISO-8601 timestamp text is modelled by its decimal
digit string (most significant first). -/
structure SessionJson where
  steamid : String
  appid : Int
  game_name : String
  window_start_utc : List Nat
  window_end_utc : List Nat
  minutes_delta : Int
deriving DecidableEq, Repr

/-- Model of `datetime.astimezone(timezone.utc).isoformat()`: an injective
textual rendering of a UTC instant. -/
def isoformat (t : Nat) : List Nat :=
  (Nat.digits 10 t).reverse

/-- Model of ISO-8601 parsing (`datetime.fromisoformat`) of a rendered
timestamp back to an instant. -/
def fromisoformat (ds : List Nat) : Nat :=
  Nat.ofDigits 10 ds.reverse

/-- Model of `web_export._session_to_serializable`. -/
def session_to_serializable (s : PlaySession) : SessionJson :=
  { steamid := s.steamid
    appid := s.appid
    game_name := s.game_name
    window_start_utc := isoformat s.window_start_utc
    window_end_utc := isoformat s.window_end_utc
    minutes_delta := s.minutes_delta }

/-- Model of `web_export.export_sessions_to_json`, up to the written JSON
array: the sequence of objects a re-parse of the file yields, in order. -/
def export_sessions_to_json (sessions : List PlaySession) :
    List SessionJson :=
  sessions.map session_to_serializable

/-- Model of `steam_api.OwnedGame`. -/
structure OwnedGame where
  appid : Int
  name : Option String
  playtime_forever : Int
deriving DecidableEq, Repr

/-- State of the sqlite `playtime_snapshots` table of `storage.py`
(row ids are irrelevant to the claims and omitted; the TEXT
`captured_at_utc` column holds fixed-format ISO-8601 strings, whose
lexicographic order is the `Nat` order of the modelled timestamps).
`commits` counts executed `conn.commit()` calls. -/
structure SqliteDb where
  rows : List PlaytimeSnapshot
  commits : Nat
deriving DecidableEq, Repr

/-- Model of `storage.PlaytimeStorage.insert_snapshot_batch`: build one
row per game; with no rows, return before `executemany` and `commit`. -/
def insert_snapshot_batch (db : SqliteDb) (steamid : String)
    (games : List OwnedGame) (captured_at : Nat) : SqliteDb :=
  let rows := games.map (fun g =>
    ({ captured_at_utc := captured_at
       steamid := steamid
       appid := g.appid
       game_name := g.name
       playtime_forever := g.playtime_forever } : PlaytimeSnapshot))
  if rows.isEmpty then db
  else { rows := db.rows ++ rows, commits := db.commits + 1 }

/-- The `ORDER BY captured_at_utc ASC` key of the sqlite fetch. -/
def rowTimeLe (a b : PlaytimeSnapshot) : Prop :=
  a.captured_at_utc ≤ b.captured_at_utc

/-- The `ORDER BY appid, captured_at_utc` key of the Postgres fetch. -/
def rowItemTimeLe (a b : PlaytimeSnapshot) : Prop :=
  a.appid < b.appid ∨ (a.appid = b.appid ∧ a.captured_at_utc ≤ b.captured_at_utc)

instance : DecidableRel rowTimeLe := fun a b => by
  unfold rowTimeLe; infer_instance

instance : DecidableRel rowItemTimeLe := fun a b => by
  unfold rowItemTimeLe; infer_instance

instance : IsTotal PlaytimeSnapshot rowTimeLe :=
  ⟨fun a b => Nat.le_total a.captured_at_utc b.captured_at_utc⟩

instance : IsTrans PlaytimeSnapshot rowTimeLe :=
  ⟨fun _ _ _ h1 h2 => Nat.le_trans h1 h2⟩

instance : IsTotal PlaytimeSnapshot rowItemTimeLe := by
  constructor
  intro a b
  rcases lt_trichotomy a.appid b.appid with h | h | h
  · exact Or.inl (Or.inl h)
  · rcases Nat.le_total a.captured_at_utc b.captured_at_utc with h2 | h2
    · exact Or.inl (Or.inr ⟨h, h2⟩)
    · exact Or.inr (Or.inr ⟨h.symm, h2⟩)
  · exact Or.inr (Or.inl h)

instance : IsTrans PlaytimeSnapshot rowItemTimeLe := by
  constructor
  intro a b c hab hbc
  rcases hab with h1 | ⟨e1, h1⟩
  · rcases hbc with h2 | ⟨e2, _⟩
    · exact Or.inl (h1.trans h2)
    · exact Or.inl (e2 ▸ h1)
  · rcases hbc with h2 | ⟨e2, h2⟩
    · exact Or.inl (e1 ▸ h2)
    · exact Or.inr ⟨e1.trans e2, h1.trans h2⟩

/-- Model of `storage.PlaytimeStorage.fetch_snapshots_ordered` (sqlite):
filter by steamid (and by appid when given), `ORDER BY captured_at_utc
ASC` — the ORDER BY does NOT mention appid. -/
def fetch_snapshots_ordered (db : SqliteDb) (steamid : String)
    (appid : Option Int) : List PlaytimeSnapshot :=
  match appid with
  | none =>
    List.insertionSort rowTimeLe
      (db.rows.filter (fun r => r.steamid == steamid))
  | some a =>
    List.insertionSort rowTimeLe
      (db.rows.filter (fun r => r.steamid == steamid && r.appid == a))

/-- State of the Postgres `playtime_snapshots` table of `pg_storage.py`.
The connection is in autocommit mode; `writes` counts executed INSERT
statements. -/
structure PgDb where
  rows : List PlaytimeSnapshot
  writes : Nat
deriving DecidableEq, Repr

/-- Model of `pg_storage.PgPlaytimeStorage.insert_snapshot_batch`: with no
rows, return before `executemany`. -/
def pg_insert_snapshot_batch (db : PgDb) (steamid : String)
    (games : List OwnedGame) (captured_at : Nat) : PgDb :=
  let rows := games.map (fun g =>
    ({ captured_at_utc := captured_at
       steamid := steamid
       appid := g.appid
       game_name := g.name
       playtime_forever := g.playtime_forever } : PlaytimeSnapshot))
  if rows.isEmpty then db
  else { rows := db.rows ++ rows, writes := db.writes + 1 }

/-- Model of `pg_storage.PgPlaytimeStorage.fetch_snapshots_ordered`:
filter by steamid, `ORDER BY appid, captured_at_utc`. -/
def pg_fetch_snapshots_ordered (db : PgDb) (steamid : String) :
    List PlaytimeSnapshot :=
  List.insertionSort rowItemTimeLe
    (db.rows.filter (fun r => r.steamid == steamid))

/-- An entry of the `recent_games` list stored inside a previous
snapshot's `games_data`: `save_snapshot` (src/backend/collector.py)
stores the scraper's raw game dicts, and the scraper sets `'appid'` only
when its profile-link regex matches (`_parse_game_div`), never in
`_parse_game_detail` — so the key may be absent and is modelled as
optional.  `playtime_total` is likewise set only when a regex matches and
is read back with `.get('playtime_total', 0)`, so it is optional too. -/
structure OldGame where
  appid : Option Int
  playtime_total : Option ℚ
deriving DecidableEq, Repr

/-- A freshly scraped game dict: `appid` is read with `.get('appid')`
(possibly absent), `playtime_total` with `.get('playtime_total', 0)`
(the default is folded into the model, the comparison only ever reads
the defaulted value). -/
structure NewGame where
  appid : Option Int
  playtime_total : ℚ
deriving DecidableEq, Repr

/-- Lookup in the comprehension `{game['appid']: game for game in
old_games}` once it has been built: the LAST entry with the key wins
(later duplicates overwrite earlier ones). -/
def old_games_dict (old_games : List OldGame) (a : Int) : Option OldGame :=
  (old_games.filter (fun og => og.appid == some a)).getLast?

/-- The dict-lookup tail of one `is_data_changed` loop iteration:
`if not old_game: return True` for a missing entry, then
`if abs(old_time - new_time) > 0.01: return True`. -/
def storedGameChanged (pt : ℚ) : Option OldGame → Bool
  | none => true
  | some og => decide ((1 : ℚ)/100 < |og.playtime_total.getD 0 - pt|)

/-- One `is_data_changed` loop iteration for a freshly fetched game with
appid `oa` and playtime `pt`: a falsy appid (`None` or `0`) is skipped
(`continue`, so this game never flags a change), otherwise the previous
snapshot's dict entry is compared. -/
def newGameChanged (old_games : List OldGame) : Option Int → ℚ → Bool
  | none, _ => false
  | some a, pt =>
    if a == 0 then false
    else storedGameChanged pt (old_games_dict old_games a)

/-- The `for new_game in new_data` loop of
`SteamCollectorV2.is_data_changed`: it returns True at the first game that
flags a change and False when the loop finishes. -/
def checkNewGames (old_games : List OldGame) (new_data : List NewGame) :
    Bool :=
  new_data.any (fun g => newGameChanged old_games g.appid g.playtime_total)

/-- Model of `SteamCollectorV2.is_data_changed` (src/backend/collector.py
lines 120-163).  `old_data = none` models a missing previous snapshot
(first collection); `some old_games` models a previous `games_data` dict
with its `recent_games` list.  Building the comprehension
`{game['appid']: game for game in old_games}` evaluates `game['appid']`
for every stored game, so when any stored game lacks the key the function
raises `KeyError` — modelled as `.error`; the length check runs before
the comprehension and the loop after it. -/
def is_data_changed (old_data : Option (List OldGame))
    (new_data : List NewGame) : Except String Bool :=
  match old_data with
  | none => .ok true
  | some old_games =>
    if old_games.length ≠ new_data.length then .ok true
    else if old_games.any (fun og => og.appid.isNone) then
      .error "KeyError: appid"
    else .ok (checkNewGames old_games new_data)

/-- The change-gate condition exactly as the claim words it (spec §4.3):
a previous snapshot exists, has the same number of games, every newly
fetched game's item id is present in it, and each such game's value is
within `0.01`. -/
def unchangedClaim (old_data : Option (List OldGame))
    (new_data : List NewGame) : Prop :=
  ∃ old_games, old_data = some old_games ∧
    old_games.length = new_data.length ∧
    ∀ g ∈ new_data, ∃ a, g.appid = some a ∧
      ∃ og ∈ old_games, og.appid = some a ∧
        |og.playtime_total.getD 0 - g.playtime_total| ≤ (1 : ℚ)/100

/-- Truthiness of an `Except` outcome (success of a subject's
try-block). -/
def exceptOk {ε α : Type} : Except ε α → Bool
  | .ok _ => true
  | .error _ => false

/-- Model of `SteamCollectorV2.collect_player_data`: the whole body is
wrapped in `try/except Exception`, abstracted as `body`; every success
path returns the steamid, the except-branch returns `None`. -/
def collect_player_data (body : String → Except String String)
    (steamid : String) : Option String :=
  match body steamid with
  | .ok r => some r
  | .error _ => none

/-- One step of the batch summary loop: `success_count += 1` when
`future.result()` is truthy (the steamid), `fail_count += 1` when it is
`None`. -/
def collectStep (body : String → Except String String)
    (acc : Nat × Nat) (p : String) : Nat × Nat :=
  match collect_player_data body p with
  | some _ => (acc.1 + 1, acc.2)
  | none => (acc.1, acc.2 + 1)

/-- Model of the batch summary loop of `backend/collector.py main`: one
`collect_player_data` call per configured player, counting successes and
failures (the thread pool's completion order does not affect the counts;
the fold models an arbitrary serialisation of it). -/
def collectBatchCounts (body : String → Except String String)
    (players : List String) : Nat × Nat :=
  players.foldl (collectStep body) (0, 0)

/-- C1: for every ordered snapshot partition of one item, the inference
engine emits exactly one session for each adjacent pair (prev, current)
with `current.cumulative_value > prev.cumulative_value` — carrying
`value_delta = current - prev`, `window_start = prev.captured_at`,
`window_end = current.captured_at` — and no session for any adjacent pair
with `current.cumulative_value <= prev.cumulative_value`.  Stated as: the
per-item walk equals the filterMap over the partition's adjacent pairs
that keeps exactly the strictly increasing pairs, with exactly those
fields. -/
theorem inference_pair_contract (steamid : String) (appid : Int)
    (snaps : List PlaytimeSnapshot) :
    sessionsForApp steamid appid snaps =
      adjacentPairSessions steamid appid snaps :=
  sessionsForApp_eq_adjacentPairSessions steamid appid snaps

/-- C2: the walk always advances `prev`, also after a pair that emitted
nothing: an item with cumulative values 100 at t1, 80 at t2, 150 at t3
(t1 < t2 < t3) yields no session for (t1, t2) and exactly one session of
delta 70 with window [t2, t3]. -/
theorem walk_advances_prev (t1 t2 t3 : Nat) (h12 : t1 < t2) (h23 : t2 < t3) :
    sessionsForApp "s" 10
      [{ captured_at_utc := t1, steamid := "s", appid := 10,
         game_name := some "X", playtime_forever := 100 },
       { captured_at_utc := t2, steamid := "s", appid := 10,
         game_name := some "X", playtime_forever := 80 },
       { captured_at_utc := t3, steamid := "s", appid := 10,
         game_name := some "X", playtime_forever := 150 }] =
      [{ steamid := "s", appid := 10, game_name := "X",
         window_start_utc := t2, window_end_utc := t3,
         minutes_delta := 70 }] := by
  norm_num [sessionsForApp, walkPairs, analyzerGameName, pyStrOr]
  rfl

theorem walk_advances_prev_witness :
    sessionsForApp "s" 10
      [{ captured_at_utc := 0, steamid := "s", appid := 10,
         game_name := some "X", playtime_forever := 100 },
       { captured_at_utc := 1, steamid := "s", appid := 10,
         game_name := some "X", playtime_forever := 80 },
       { captured_at_utc := 2, steamid := "s", appid := 10,
         game_name := some "X", playtime_forever := 150 }] =
      [{ steamid := "s", appid := 10, game_name := "X",
         window_start_utc := 1, window_end_utc := 2,
         minutes_delta := 70 }] :=
  walk_advances_prev 0 1 2 (by decide) (by decide)

/-- C6: an item partition with fewer than two snapshots emits zero
sessions, and a subject with an empty snapshot list yields an empty
session list (the engine is a total function; no error path exists). -/
theorem short_partition_no_sessions :
    (∀ (steamid : String) (appid : Int) (snaps : List PlaytimeSnapshot),
       snaps.length < 2 → sessionsForApp steamid appid snaps = []) ∧
    (∀ steamid : String, infer_sessions_for_steamid steamid [] = []) := by
  constructor
  · intro steamid appid snaps h
    unfold sessionsForApp
    rw [if_pos h]
  · intro steamid
    rfl

theorem short_partition_no_sessions_witness :
    ((([{ captured_at_utc := 0, steamid := "s", appid := 1,
          game_name := none, playtime_forever := 5 }] :
        List PlaytimeSnapshot).length < 2) ∧
      sessionsForApp "s" 1
        [{ captured_at_utc := 0, steamid := "s", appid := 1,
           game_name := none, playtime_forever := 5 }] = []) ∧
    infer_sessions_for_steamid "s" [] = [] :=
  ⟨⟨by decide, short_partition_no_sessions.1 "s" 1 _ (by decide)⟩,
    short_partition_no_sessions.2 "s"⟩

/-- C10: inserting an empty games batch leaves both snapshot stores
completely unchanged — no row appended, no commit/write executed — so any
subsequent fetch returns exactly what it returned before. -/
theorem insert_empty_batch_frame :
    (∀ (db : SqliteDb) (steamid : String) (t : Nat),
       insert_snapshot_batch db steamid [] t = db) ∧
    (∀ (db : SqliteDb) (steamid : String) (t : Nat)
       (qsid : String) (qapp : Option Int),
       fetch_snapshots_ordered (insert_snapshot_batch db steamid [] t)
           qsid qapp =
         fetch_snapshots_ordered db qsid qapp) ∧
    (∀ (db : PgDb) (steamid : String) (t : Nat),
       pg_insert_snapshot_batch db steamid [] t = db) ∧
    (∀ (db : PgDb) (steamid : String) (t : Nat) (qsid : String),
       pg_fetch_snapshots_ordered (pg_insert_snapshot_batch db steamid [] t)
           qsid =
         pg_fetch_snapshots_ordered db qsid) := by
  refine ⟨fun db steamid t => rfl, fun db steamid t qsid qapp => rfl,
    fun db steamid t => rfl, fun db steamid t qsid => rfl⟩

/-- C5: exporting any session list to the JSON file format and re-parsing
yields, in order, objects whose subject_id, item_id and value_delta are
identical to the originals and whose window timestamps parse back (via
ISO-8601 parsing) to instants equal to the originals. -/
theorem export_roundtrip (sessions : List PlaySession) :
    List.Forall₂
      (fun s j =>
        j.steamid = s.steamid ∧ j.appid = s.appid ∧
        j.minutes_delta = s.minutes_delta ∧
        fromisoformat j.window_start_utc = s.window_start_utc ∧
        fromisoformat j.window_end_utc = s.window_end_utc)
      sessions (export_sessions_to_json sessions) := by
  induction sessions with
  | nil => simp [export_sessions_to_json]
  | cons s rest ih =>
    refine List.Forall₂.cons ?_ ih
    refine ⟨rfl, rfl, rfl, ?_, ?_⟩ <;>
      simp [session_to_serializable, fromisoformat, isoformat,
        Nat.ofDigits_digits]

/-- A store with one subject and two rows whose capture-time order is the
reverse of their appid order: time 1 carries appid 2, time 2 carries
appid 1. -/
def c4Db : SqliteDb :=
  { rows :=
      [{ captured_at_utc := 1, steamid := "s", appid := 2,
         game_name := none, playtime_forever := 0 },
       { captured_at_utc := 2, steamid := "s", appid := 1,
         game_name := none, playtime_forever := 0 }]
    commits := 0 }

/-- C4 counterexample: the sqlite `fetch_snapshots_ordered` (no appid
filter) orders by `captured_at_utc` only, so on `c4Db` it returns the
appid-2 row before the appid-1 row — an output that is NOT sorted first
by item and then by capture time, refuting the claim as stated. -/
theorem sqlite_fetch_not_item_sorted :
    ¬ List.Pairwise rowItemTimeLe (fetch_snapshots_ordered c4Db "s" none) := by
  decide

/-- C4 amended: the Postgres `fetch_snapshots_ordered` returns the
subject's rows sorted by item (appid) and then by capture time within
each item; the sqlite `fetch_snapshots_ordered` (without an appid filter)
returns them sorted by capture time only. -/
theorem fetch_ordered_sorting (db : SqliteDb) (pdb : PgDb)
    (steamid : String) :
    List.Pairwise rowItemTimeLe (pg_fetch_snapshots_ordered pdb steamid) ∧
    List.Pairwise rowTimeLe (fetch_snapshots_ordered db steamid none) := by
  constructor
  · exact List.sorted_insertionSort rowItemTimeLe _
  · exact List.sorted_insertionSort rowTimeLe _

theorem appid_placeholder_ne_empty (x : String) : ("appid " ++ x) ≠ "" := by
  intro hc
  have := congrArg String.length hc
  rw [String.length_append] at this
  have h6 : ("appid " : String).length = 6 := rfl
  rw [h6] at this
  simp at this

theorem analyzerGameName_ne_empty (appid : Int) (cur prev : Option String) :
    analyzerGameName appid cur prev ≠ "" := by
  unfold analyzerGameName
  by_cases h : pyStrOr cur (pyStrOr prev "") = ""
  · rw [if_pos h]
    exact appid_placeholder_ne_empty (toString appid)
  · rw [if_neg h]
    exact h

theorem frontendGameName_ne_empty (appid : Int) (cur prev : Option String) :
    frontendGameName appid cur prev ≠ "" := by
  have happ : ("appid " ++ toString appid) ≠ "" :=
    appid_placeholder_ne_empty (toString appid)
  unfold frontendGameName pyStrOr
  cases cur with
  | none =>
    cases prev with
    | none => exact happ
    | some p =>
      by_cases hp : p = "" <;> simp [hp, happ]
  | some c =>
    by_cases hc : c = ""
    · cases prev with
      | none => simp [hc, happ]
      | some p =>
        by_cases hp : p = "" <;> simp [hc, hp, happ]
    · simp [hc]

theorem mem_sessionsForApp_wellformed {steamid : String} {appid : Int}
    {snaps : List PlaytimeSnapshot} {s : PlaySession}
    (h : s ∈ sessionsForApp steamid appid snaps) :
    1 ≤ s.minutes_delta ∧ s.game_name ≠ "" := by
  rw [sessionsForApp_eq_adjacentPairSessions] at h
  unfold adjacentPairSessions at h
  rcases List.mem_filterMap.mp h with ⟨pc, _, hpc⟩
  by_cases hlt : pc.1.playtime_forever < pc.2.playtime_forever
  · rw [if_pos hlt] at hpc
    cases Option.some.inj hpc
    refine ⟨by simp; omega, ?_⟩
    exact analyzerGameName_ne_empty appid pc.2.game_name pc.1.game_name
  · rw [if_neg hlt] at hpc
    exact absurd hpc (by simp)

theorem mem_sessionsForAppF_wellformed {appid : Int}
    {snaps : List PlaytimeSnapshot} {d : SessionDict}
    (h : d ∈ sessionsForAppF appid snaps) :
    1 ≤ d.minutes_delta ∧ d.game_name ≠ "" := by
  unfold sessionsForAppF at h
  by_cases hlen : snaps.length < 2
  · rw [if_pos hlen] at h
    exact absurd h (by simp)
  · rw [if_neg hlen] at h
    match snaps, h with
    | prev :: rest, h =>
      clear hlen
      induction rest generalizing prev with
      | nil => exact absurd h (by simp [walkPairsF])
      | cons c rest ih =>
        unfold walkPairsF at h
        rcases List.mem_append.mp h with h1 | h1
        · by_cases hlt : prev.playtime_forever < c.playtime_forever
          · rw [if_pos hlt] at h1
            rcases List.mem_singleton.mp h1 with rfl
            refine ⟨by simp; omega, ?_⟩
            exact frontendGameName_ne_empty appid c.game_name prev.game_name
          · rw [if_neg hlt] at h1
            exact absurd h1 (by simp)
        · exact ih c h1

/-- C9: every session either engine ever emits is well-formed: its
minutes_delta is at least 1 (the emission guard demands a strict integer
increase) and its game_name is a non-empty string (the fallback chain
ends in the non-empty synthetic placeholder). -/
theorem emitted_sessions_wellformed :
    (∀ (steamid : String) (snaps : List PlaytimeSnapshot)
       (s : PlaySession), s ∈ infer_sessions_for_steamid steamid snaps →
       1 ≤ s.minutes_delta ∧ s.game_name ≠ "") ∧
    (∀ (snaps : List PlaytimeSnapshot) (d : SessionDict),
       d ∈ inferSessionsFromSnapshots snaps →
       1 ≤ d.minutes_delta ∧ d.game_name ≠ "") := by
  constructor
  · intro steamid snaps s h
    unfold infer_sessions_for_steamid at h
    rcases List.mem_flatten.mp h with ⟨l, hl, hs⟩
    rcases List.mem_map.mp hl with ⟨a, _, rfl⟩
    exact mem_sessionsForApp_wellformed hs
  · intro snaps d h
    unfold inferSessionsFromSnapshots at h
    rw [(List.perm_insertionSort sessLe _).mem_iff] at h
    unfold rawSessionsFromSnapshots at h
    rcases List.mem_flatten.mp h with ⟨l, hl, hd⟩
    rcases List.mem_map.mp hl with ⟨a, _, rfl⟩
    exact mem_sessionsForAppF_wellformed hd

def c9Snaps : List PlaytimeSnapshot :=
  [{ captured_at_utc := 1, steamid := "p", appid := 7,
     game_name := some "X", playtime_forever := 10 },
   { captured_at_utc := 2, steamid := "p", appid := 7,
     game_name := some "X", playtime_forever := 25 }]

def c9Session : PlaySession :=
  { steamid := "p", appid := 7, game_name := "X",
    window_start_utc := 1, window_end_utc := 2, minutes_delta := 15 }

def c9Dict : SessionDict :=
  { steamid := "p", appid := 7, game_name := "X",
    window_start_utc := 1, window_end_utc := 2, minutes_delta := 15 }

theorem emitted_sessions_wellformed_witness :
    (1 ≤ c9Session.minutes_delta ∧ c9Session.game_name ≠ "") ∧
    (1 ≤ c9Dict.minutes_delta ∧ c9Dict.game_name ≠ "") :=
  ⟨emitted_sessions_wellformed.1 "p" c9Snaps c9Session (by decide),
   emitted_sessions_wellformed.2 c9Snaps c9Dict (by decide)⟩

/-- C8: for every positive limit, the served sessions query returns the
inferred sessions sorted by (subject, item, window_start) — a permutation
of the raw inference output — and truncates to exactly the last `limit`
entries of that sorted order when more than `limit` sessions exist. -/
theorem get_sessions_sorted_truncated (snaps : List PlaytimeSnapshot)
    (l : Int) (hl : 0 < l) :
    List.Pairwise sessLe (get_sessions snaps (some l)) ∧
    (inferSessionsFromSnapshots snaps).Perm (rawSessionsFromSnapshots snaps) ∧
    (l < ((inferSessionsFromSnapshots snaps).length : Int) →
      get_sessions snaps (some l) =
        (inferSessionsFromSnapshots snaps).drop
          ((inferSessionsFromSnapshots snaps).length - l.toNat)) ∧
    (((inferSessionsFromSnapshots snaps).length : Int) ≤ l →
      get_sessions snaps (some l) = inferSessionsFromSnapshots snaps) := by
  have hsorted : List.Pairwise sessLe (inferSessionsFromSnapshots snaps) :=
    List.sorted_insertionSort sessLe _
  refine ⟨?_, List.perm_insertionSort sessLe _, ?_, ?_⟩
  · simp only [get_sessions]
    by_cases hc : 0 < l ∧ l < ((inferSessionsFromSnapshots snaps).length : Int)
    · rw [if_pos hc]
      exact hsorted.sublist (List.drop_sublist _ _)
    · rw [if_neg hc]
      exact hsorted
  · intro hlen
    simp only [get_sessions]
    rw [if_pos ⟨hl, hlen⟩]
  · intro hlen
    simp only [get_sessions]
    rw [if_neg (by rintro ⟨h1, h2⟩; omega)]

def c8Snaps : List PlaytimeSnapshot :=
  [{ captured_at_utc := 1, steamid := "p", appid := 7,
     game_name := some "X", playtime_forever := 10 },
   { captured_at_utc := 2, steamid := "p", appid := 7,
     game_name := some "X", playtime_forever := 25 },
   { captured_at_utc := 3, steamid := "p", appid := 7,
     game_name := some "X", playtime_forever := 40 }]

theorem get_sessions_sorted_truncated_witness :
    (0 : Int) < 1 ∧
    (List.Pairwise sessLe (get_sessions c8Snaps (some 1)) ∧
     (inferSessionsFromSnapshots c8Snaps).Perm
       (rawSessionsFromSnapshots c8Snaps) ∧
     ((1 : Int) < ((inferSessionsFromSnapshots c8Snaps).length : Int) →
       get_sessions c8Snaps (some 1) =
         (inferSessionsFromSnapshots c8Snaps).drop
           ((inferSessionsFromSnapshots c8Snaps).length - (1 : Int).toNat)) ∧
     (((inferSessionsFromSnapshots c8Snaps).length : Int) ≤ 1 →
       get_sessions c8Snaps (some 1) = inferSessionsFromSnapshots c8Snaps)) :=
  ⟨by decide, get_sessions_sorted_truncated c8Snaps 1 (by decide)⟩

/-- The change-gate condition under which the code actually reports
"unchanged", written next to `unchangedClaim` for comparison: every
stored previous game must carry an item id (otherwise the gate raises
KeyError instead of reporting anything), newly fetched games with a falsy
(`None` or `0`) appid are skipped by the loop, and a duplicated appid in
the previous snapshot is resolved to its LAST entry by the dict
comprehension. -/
def unchangedAmended (old_data : Option (List OldGame))
    (new_data : List NewGame) : Prop :=
  ∃ old_games, old_data = some old_games ∧
    old_games.length = new_data.length ∧
    (∀ og ∈ old_games, og.appid ≠ none) ∧
    ∀ g ∈ new_data, ∀ a, g.appid = some a → a ≠ 0 →
      ∃ og, old_games_dict old_games a = some og ∧
        |og.playtime_total.getD 0 - g.playtime_total| ≤ (1 : ℚ)/100

theorem newGameChanged_eq_false_iff (old_games : List OldGame)
    (oa : Option Int) (pt : ℚ) :
    newGameChanged old_games oa pt = false ↔
      ∀ a, oa = some a → a ≠ 0 →
        ∃ og, old_games_dict old_games a = some og ∧
          |og.playtime_total.getD 0 - pt| ≤ (1 : ℚ)/100 := by
  cases oa with
  | none => simp [newGameChanged]
  | some a =>
    rw [newGameChanged]
    by_cases ha0 : a = 0
    · subst ha0
      rw [if_pos (by simp)]
      simp
    · rw [if_neg (by simp [ha0])]
      cases hd : old_games_dict old_games a with
      | none =>
        refine iff_of_false (by simp [storedGameChanged]) ?_
        intro h
        rcases h a rfl ha0 with ⟨og, hog, _⟩
        rw [hd] at hog
        exact Option.noConfusion hog
      | some og =>
        rw [storedGameChanged]
        simp only [decide_eq_false_iff_not, not_lt]
        constructor
        · intro h a' ha' _
          cases Option.some.inj ha'
          exact ⟨og, hd, h⟩
        · intro h
          rcases h a rfl ha0 with ⟨og', hog', hle⟩
          rw [hd] at hog'
          cases Option.some.inj hog'
          exact hle

theorem checkNewGames_eq_false_iff (old_games : List OldGame)
    (new_data : List NewGame) :
    checkNewGames old_games new_data = false ↔
      ∀ g ∈ new_data, ∀ a, g.appid = some a → a ≠ 0 →
        ∃ og, old_games_dict old_games a = some og ∧
          |og.playtime_total.getD 0 - g.playtime_total| ≤ (1 : ℚ)/100 := by
  rw [checkNewGames, List.any_eq_false]
  constructor
  · intro h g hg
    exact (newGameChanged_eq_false_iff old_games g.appid
      g.playtime_total).mp (by simpa using h g hg)
  · intro h g hg
    simp only [Bool.not_eq_true]
    exact (newGameChanged_eq_false_iff old_games g.appid
      g.playtime_total).mpr (h g hg)

/-- A previous snapshot holding one game (appid 1, 5 hours) and a freshly
fetched list holding one game whose appid is missing. -/
def c7Old : Option (List OldGame) :=
  some [{ appid := some 1, playtime_total := some 5 }]

def c7New : List NewGame := [{ appid := none, playtime_total := 0 }]

/-- C7 counterexample: on `c7Old`/`c7New` the gate reports "unchanged"
(it returns `False`: the loop skips the id-less fetched game entirely),
yet the claim's condition fails — the fetched game's item id is not
present in the previous snapshot — so the claimed "exactly when"
equivalence is false at this input. -/
theorem change_gate_claim_counterexample :
    is_data_changed c7Old c7New = .ok false ∧ ¬ unchangedClaim c7Old c7New := by
  refine ⟨rfl, ?_⟩
  rintro ⟨gs, hgs, _, hall⟩
  cases Option.some.inj hgs
  rcases hall { appid := none, playtime_total := 0 }
      (List.mem_singleton_self _) with ⟨a, ha, _⟩
  exact Option.noConfusion ha

/-- C7 amended: the gate reports "unchanged" (returns `False`) exactly
when a previous snapshot exists, holds the same number of games, every
stored previous game carries an item id, and every newly fetched game
carrying a present, non-zero item id maps (through the previous
snapshot's last entry for that id) to a stored value within 0.01 of a
unit; newly fetched games with a missing or zero id are skipped by the
comparison; with no previous snapshot the gate always reports "changed";
and when the lengths match but some stored previous game lacks an item
id, the gate raises KeyError (reports nothing). -/
theorem change_gate_unchanged_iff (old_data : Option (List OldGame))
    (new_data : List NewGame) :
    (is_data_changed old_data new_data = .ok false ↔
      unchangedAmended old_data new_data) ∧
    is_data_changed none new_data = .ok true ∧
    (∀ old_games : List OldGame, old_games.length = new_data.length →
      (∃ og ∈ old_games, og.appid = none) →
      is_data_changed (some old_games) new_data = .error "KeyError: appid") := by
  refine ⟨?_, rfl, ?_⟩
  · cases old_data with
    | none =>
      refine iff_of_false (by simp [is_data_changed]) ?_
      rintro ⟨gs, hgs, _⟩
      exact Option.noConfusion hgs
    | some old_games =>
      rw [is_data_changed]
      by_cases hlen : old_games.length ≠ new_data.length
      · rw [if_pos hlen]
        refine iff_of_false (by simp) ?_
        rintro ⟨gs, hgs, hl, _⟩
        cases Option.some.inj hgs
        exact hlen hl
      · rw [if_neg hlen]
        push_neg at hlen
        by_cases hid : old_games.any (fun og => og.appid.isNone)
        · rw [if_pos hid]
          refine iff_of_false (by simp) ?_
          rintro ⟨gs, hgs, _, hids, _⟩
          cases Option.some.inj hgs
          rcases List.any_eq_true.mp hid with ⟨og, hog, hnone⟩
          exact hids og hog (Option.isNone_iff_eq_none.mp (by simpa using hnone))
        · rw [if_neg hid]
          have hids : ∀ og ∈ old_games, og.appid ≠ none := by
            intro og hog hnone
            exact hid (List.any_eq_true.mpr ⟨og, hog, by simp [hnone]⟩)
          constructor
          · intro h
            refine ⟨old_games, rfl, hlen, hids,
              (checkNewGames_eq_false_iff old_games new_data).mp ?_⟩
            simpa using h
          · rintro ⟨gs, hgs, _, _, h⟩
            cases Option.some.inj hgs
            rw [(checkNewGames_eq_false_iff old_games new_data).mpr h]
  · intro old_games hlen hex
    have hany : old_games.any (fun og => og.appid.isNone) = true := by
      rcases hex with ⟨og, hog, hnone⟩
      exact List.any_eq_true.mpr ⟨og, hog, by simp [hnone]⟩
    rw [is_data_changed, if_neg (fun h => h hlen), if_pos hany]

/-- A stored previous snapshot whose single game lacks the `'appid'`
key. -/
def c7OldMissingId : List OldGame :=
  [{ appid := none, playtime_total := some 5 }]

theorem change_gate_unchanged_iff_witness :
    c7OldMissingId.length =
      [({ appid := some 1, playtime_total := 0 } : NewGame)].length ∧
    (∃ og ∈ c7OldMissingId, og.appid = none) ∧
    is_data_changed (some c7OldMissingId)
        [({ appid := some 1, playtime_total := 0 } : NewGame)] =
      .error "KeyError: appid" :=
  ⟨rfl,
   ⟨{ appid := none, playtime_total := some 5 },
     List.mem_singleton_self _, rfl⟩,
   (change_gate_unchanged_iff (some c7OldMissingId)
       [({ appid := some 1, playtime_total := 0 } : NewGame)]).2.2
     c7OldMissingId rfl
     ⟨{ appid := none, playtime_total := some 5 },
       List.mem_singleton_self _, rfl⟩⟩

def c3Session : PlaySession :=
  { steamid := "b", appid := 1, game_name := "X",
    window_start_utc := 0, window_end_utc := 1, minutes_delta := 5 }

/-- A per-subject fetch+inference in which subject "a" raises and subject
"b" succeeds with one session. -/
def c3Fetch : String → Except String (List PlaySession) :=
  fun steamid => if steamid = "a" then .error "boom" else .ok [c3Session]

/-- C3 counterexample: in `analyzer.infer_sessions_for_all` the failure
of subject "a" aborts the whole batch — the call returns the error and
subject "b"'s sessions, although "b" succeeds on its own, are not
collected.  This refutes the claim that a failure for one subject never
aborts the others and that partial results are still collected. -/
theorem infer_all_not_isolated :
    c3Fetch "b" = .ok [c3Session] ∧
    infer_sessions_for_all c3Fetch ["a", "b"] = .error "boom" :=
  ⟨rfl, rfl⟩

/-- C3 amended: per-subject isolation holds in the backend collector
batch (`SteamCollectorV2.collect_player_data` catches every exception of
its body, so the batch summary counts every configured subject as either
a success or a failure and one subject's failure never aborts the rest),
but `analyzer.infer_sessions_for_all` does NOT isolate: the first
subject whose fetch/inference raises makes the whole call raise. -/
theorem per_subject_isolation :
    (∀ (body : String → Except String String) (players : List String),
       (collectBatchCounts body players).1 =
         players.countP (fun p => exceptOk (body p)) ∧
       (collectBatchCounts body players).2 =
         players.countP (fun p => !exceptOk (body p))) ∧
    (∀ (f : String → Except String (List PlaySession))
       (steamid : String) (rest : List String) (e : String),
       f steamid = .error e →
       infer_sessions_for_all f (steamid :: rest) = .error e) := by
  constructor
  · intro body players
    have hstep : ∀ (acc : Nat × Nat) (p : String),
        collectStep body acc p =
          if exceptOk (body p) then (acc.1 + 1, acc.2)
          else (acc.1, acc.2 + 1) := by
      intro acc p
      unfold collectStep collect_player_data exceptOk
      cases body p <;> simp
    suffices h : ∀ (x y : Nat),
        players.foldl (collectStep body) (x, y) =
          (x + players.countP (fun p => exceptOk (body p)),
           y + players.countP (fun p => !exceptOk (body p))) by
      rw [collectBatchCounts, h 0 0]
      constructor <;> simp
    intro x y
    induction players generalizing x y with
    | nil => simp
    | cons p rest ih =>
      rw [List.foldl_cons, hstep, List.countP_cons, List.countP_cons]
      by_cases hp : exceptOk (body p)
      · rw [if_pos hp, ih]
        refine Prod.ext ?_ ?_ <;> simp [hp] <;> omega
      · rw [if_neg hp, ih]
        simp only [Bool.not_eq_true] at hp
        refine Prod.ext ?_ ?_ <;> simp [hp] <;> omega
  · intro f steamid rest e h
    unfold infer_sessions_for_all
    rw [h]

def c3Body : String → Except String String :=
  fun steamid => if steamid = "a" then .error "boom" else .ok steamid

theorem per_subject_isolation_witness :
    ((collectBatchCounts c3Body ["a", "b"]).1 =
       (["a", "b"].countP (fun p => exceptOk (c3Body p))) ∧
     (collectBatchCounts c3Body ["a", "b"]).2 =
       (["a", "b"].countP (fun p => !exceptOk (c3Body p)))) ∧
    infer_sessions_for_all c3Fetch ["a", "b"] = .error "boom" :=
  ⟨per_subject_isolation.1 c3Body ["a", "b"],
   per_subject_isolation.2 c3Fetch "a" ["b"] "boom" rfl⟩
